import Mathlib

/-!
Shallow embedding of the STM32 async DMA engine
(`embassy-stm32/src/dma/dma.rs` and `embassy-stm32/src/dma/bdma.rs`).

Register files are modelled as total functions from controller / channel
ordinals to register values; every memory-mapped access is additionally
recorded in an explicit event trace.  The `dma` namespace embeds `dma.rs`
(DMA1/DMA2, 8 streams per controller, status split over two ISR words of four
channels each); the `bdma` namespace embeds `bdma.rs` (flat status register).
Wakers are task identifiers (`Nat`); the waker table models the process-wide
`STATE.ch_wakers` array of `AtomicWaker`s.  Waking is modelled after the
documented collaborator behaviour: it resumes whatever occupies the slot and
is a no-op when the slot is empty.
-/

/-- Generic pointwise update of a doubly-indexed register file. -/
def upd2 {α : Type} (f : Nat → Nat → α) (d n : Nat) (v : α) : Nat → Nat → α :=
  fun a b => if a = d ∧ b = n then v else f a b

/-- Generic pointwise update of a singly-indexed table. -/
def upd1 {α : Type} (f : Nat → α) (n : Nat) (v : α) : Nat → α :=
  fun m => if m = n then v else f m

@[simp]
theorem upd2_same {α : Type} (f : Nat → Nat → α) (d n : Nat) (v : α) :
    upd2 f d n v d n = v := by
  simp [upd2]

theorem upd2_other {α : Type} (f : Nat → Nat → α) (d n a b : Nat) (v : α)
    (h : ¬(a = d ∧ b = n)) : upd2 f d n v a b = f a b := by
  simp [upd2, h]

@[simp]
theorem upd1_same {α : Type} (f : Nat → α) (n : Nat) (v : α) : upd1 f n v n = v := by
  simp [upd1]

theorem upd1_other {α : Type} (f : Nat → α) (n m : Nat) (v : α) (h : m ≠ n) :
    upd1 f n v m = f m := by
  simp [upd1, h]

/-- Transfer direction (`pac::dma::vals::Dir` / `pac::bdma::vals::Dir`). -/
inductive Dir
  | peripheralToMemory
  | memoryToPeripheral
  deriving DecidableEq, Repr

/-- Element width (`vals::Size`). -/
inductive Size
  | bits8
  | bits16
  | bits32
  deriving DecidableEq, Repr

/-- Stream priority (`vals::Pl`), reset value `low`. -/
inductive Pl
  | low
  | medium
  | high
  | veryHigh
  deriving DecidableEq, Repr

/-- Address increment mode (`vals::Inc`), reset value `fixed`. -/
inductive Inc
  | fixed
  | incremented
  deriving DecidableEq, Repr

/-- Result of one poll of a completion future. -/
inductive PollRes
  | ready
  | pending
  deriving DecidableEq, Repr

namespace dma

/-- The stream configuration register CR of one DMA stream, holding exactly the
fields `low_level_api::start_transfer` (dma.rs) writes; `chsel` models the
`dma_v2` request selection.  The power-on reset value clears every field. -/
structure Cr where
  en : Bool
  tcie : Bool
  teie : Bool
  dir : Dir
  msize : Size
  psize : Size
  pl : Pl
  minc : Inc
  pinc : Inc
  chsel : Nat
  deriving DecidableEq, Repr

/-- Power-on reset value of CR: all bits clear. -/
def Cr.reset : Cr :=
  ⟨false, false, false, Dir.peripheralToMemory, Size.bits8, Size.bits8, Pl.low,
    Inc.fixed, Inc.fixed, 0⟩

/-- Registers of one DMA stream: CR, count (NDTR, 32-bit storage whose `ndt`
field is the low 16 bits), peripheral address, memory address. -/
structure ChSt where
  cr : Cr
  ndtr : Nat
  par : Nat
  m0ar : Nat
  deriving DecidableEq, Repr

/-- Reset value of a stream's registers. -/
def ChSt.reset : ChSt := ⟨Cr.reset, 0, 0, 0⟩

/-- Register-level events recorded by the embedding: each constructor is one
memory-mapped access, fence, or waker invocation performed by the code. -/
inductive Event
  | writeIfcr (d isrn isrbit : Nat)
  | writePar (d ch v : Nat)
  | writeM0ar (d ch v : Nat)
  | writeNdtr (d ch v : Nat)
  | writeCr (d ch : Nat) (v : Cr)
  | readCr (d ch : Nat)
  | readIsr (d isrn : Nat)
  | fenceRelease
  | fenceAcquire
  | wakeTask (slot : Nat) (occ : Option Nat)
  deriving DecidableEq, Repr

/-- Whether an event writes a DMA register. -/
def Event.isWrite : Event → Bool
  | Event.writeIfcr _ _ _ => true
  | Event.writePar _ _ _ => true
  | Event.writeM0ar _ _ _ => true
  | Event.writeNdtr _ _ _ => true
  | Event.writeCr _ _ _ => true
  | _ => false

/-- Whether an event clears the sticky status flags (an IFCR write). -/
def Event.isStatusClear : Event → Bool
  | Event.writeIfcr _ _ _ => true
  | _ => false

/-- Whether an event writes a CR value whose enable bit is set. -/
def Event.isEnableWrite : Event → Bool
  | Event.writeCr _ _ v => v.en
  | _ => false

/-- Number of acquire fences in a trace.  `low_level_api::stop` is the only
primitive that issues an acquire fence (exactly one per call), so this counts
executions of the stop routine. -/
def stopCount (tr : List Event) : Nat :=
  (tr.filter fun e => e = Event.fenceAcquire).length

/-- Whole-system state: per-stream registers `chs d ch`, sticky status flags
(`tcif d n` is `isr(n / 4).tcif(n % 4)` of controller `d`), and the
`STATE.ch_wakers` table. -/
structure St where
  chs : Nat → Nat → ChSt
  tcif : Nat → Nat → Bool
  teif : Nat → Nat → Bool
  wakers : Nat → Option Nat

/-- Boot state: all registers at reset, no flags, no wakers. -/
def St.init : St :=
  ⟨fun _ _ => ChSt.reset, fun _ _ => false, fun _ _ => false, fun _ => none⟩

/-- The function `low_level_api::reset_status`: one IFCR write clearing the
sticky transfer-complete and transfer-error flags of the channel at flat
index `isrn * 4 + isrbit`. -/
def reset_status (st : St) (d isrn isrbit : Nat) : St × List Event :=
  ({ st with
      tcif := upd2 st.tcif d (isrn * 4 + isrbit) false
      teif := upd2 st.teif d (isrn * 4 + isrbit) false },
    [Event.writeIfcr d isrn isrbit])

/-- The function `low_level_api::start_transfer` (dma.rs): a release fence,
then program PAR, M0AR, NDTR (the `usize` count cast to the 32-bit register
value) and finally CR, arming both interrupts and setting the enable bit. -/
def start_transfer (request : Nat) (dir : Dir) (periAddr memAddr memLen : Nat)
    (incrMem : Bool) (d ch : Nat) (dataSize : Size) (st : St) : St × List Event :=
  let crv : Cr :=
    { en := true, tcie := true, teie := true, dir := dir, msize := dataSize,
      psize := dataSize, pl := Pl.veryHigh,
      minc := if incrMem then Inc.incremented else Inc.fixed,
      pinc := Inc.fixed, chsel := request }
  let old := st.chs d ch
  ({ st with
      chs := upd2 st.chs d ch
        { old with par := periAddr, m0ar := memAddr, ndtr := memLen % 2 ^ 32, cr := crv } },
    [Event.fenceRelease, Event.writePar d ch periAddr, Event.writeM0ar d ch memAddr,
      Event.writeNdtr d ch (memLen % 2 ^ 32), Event.writeCr d ch crv])

/-- The function `low_level_api::stop`: write CR back to its power-on reset
value, busy-wait on the enable-bit readback (in this model the readback
observes `en = false` immediately after the reset write, so the loop performs
one read), then an acquire fence. -/
def stop (st : St) (d ch : Nat) : St × List Event :=
  let old := st.chs d ch
  ({ st with chs := upd2 st.chs d ch { old with cr := Cr.reset } },
    [Event.writeCr d ch Cr.reset, Event.readCr d ch, Event.fenceAcquire])

/-- The function `low_level_api::is_stopped`: returns the CR enable bit as
read, with no state change. -/
def is_stopped (st : St) (d ch : Nat) : Bool := (st.chs d ch).cr.en

/-- The function `low_level_api::get_remaining_transfers`: reads the 16-bit
`ndt` field of NDTR. -/
def get_remaining_transfers (st : St) (d ch : Nat) : Nat := (st.chs d ch).ndtr % 2 ^ 16

/-- The function `low_level_api::set_waker`: registers the waker in
`STATE.ch_wakers[state_number]`, overwriting any prior occupant.  The `_dma`
argument of the source is unused there and omitted here. -/
def set_waker (st : St) (stateNumber w : Nat) : St :=
  { st with wakers := upd1 st.wakers stateNumber (some w) }

/-- One poll of the future returned by `low_level_api::wait_for_completion`:
register the polling task under `stateNumber`, read the ISR word of the
channel; `none` models the `assert!(!isr.teif(..))` panic; ready exactly when
the transfer-complete flag is set. -/
def wait_for_completion_poll (st : St) (d stateNumber channelNumber w : Nat) :
    Option (PollRes × St × List Event) :=
  let isrn := channelNumber / 4
  let isrbit := channelNumber % 4
  let st1 := set_waker st stateNumber w
  if st1.teif d (isrn * 4 + isrbit) then none
  else if st1.tcif d (isrn * 4 + isrbit) then
    some (PollRes.ready, st1, [Event.readIsr d isrn])
  else
    some (PollRes.pending, st1, [Event.readIsr d isrn])

/-- One iteration of the inner loop of `on_irq` (dma.rs) for channel
`isrn * 4 + chn` of controller `d`: read CR; if the snapshotped
transfer-complete flag and the CR's `tcie` bit are both set, write CR back to
its reset value (disabling the channel interrupts) and wake
`STATE.ch_wakers[d * 8 + isrn * 4 + chn]`. -/
def irqStep (d isrn chn : Nat) (snap : Bool) (st : St) : St × List Event :=
  if snap && (st.chs d (isrn * 4 + chn)).cr.tcie then
    ({ st with
        chs := upd2 st.chs d (isrn * 4 + chn)
          { st.chs d (isrn * 4 + chn) with cr := Cr.reset } },
      [Event.readCr d (isrn * 4 + chn), Event.writeCr d (isrn * 4 + chn) Cr.reset,
        Event.wakeTask (d * 8 + (isrn * 4 + chn)) (st.wakers (d * 8 + (isrn * 4 + chn)))])
  else (st, [Event.readCr d (isrn * 4 + chn)])

/-- One iteration of the outer loop of `on_irq` for controller `d`, word
`isrn`: read the ISR word once, then visit channels `0..4` of that word. -/
def irqInner (d isrn : Nat) (st : St) : St × List Event :=
  let snap : Nat → Bool := fun chn => st.tcif d (isrn * 4 + chn)
  let r0 := irqStep d isrn 0 (snap 0) st
  let r1 := irqStep d isrn 1 (snap 1) r0.1
  let r2 := irqStep d isrn 2 (snap 2) r1.1
  let r3 := irqStep d isrn 3 (snap 3) r2.1
  (r3.1, Event.readIsr d isrn :: (r0.2 ++ r1.2 ++ r2.2 ++ r3.2))

/-- The interrupt handler `on_irq` (dma.rs): for every controller (DMA1 is
ordinal 0, DMA2 ordinal 1) and each of its two ISR words, service the four
channels of that word. -/
def on_irq (st : St) : St × List Event :=
  let a := irqInner 0 0 st
  let b := irqInner 0 1 a.1
  let c := irqInner 1 0 b.1
  let e := irqInner 1 1 c.1
  (e.1, a.2 ++ b.2 ++ c.2 ++ e.2)

/-- The macro-generated `Channel::set_waker` (dma.rs, `pac::dma_channels!`):
the macro passes `$channel_num` — not the global `dma_num * 8 + channel_num` —
as the state table index, so the registration lands in slot `channelNum`
regardless of the controller ordinal `dmaNum` (which the low-level function
ignores). -/
def Channel.set_waker (dmaNum channelNum w : Nat) (st : St) : St :=
  dma.set_waker st channelNum w

/-- One poll of the macro-generated `Channel::wait_for_completion` (dma.rs):
delegates to the low-level future with the global state index
`dma_num * 8 + channel_num`. -/
def Channel.wait_for_completion_poll (dmaNum channelNum w : Nat) (st : St) :
    Option (PollRes × St × List Event) :=
  dma.wait_for_completion_poll st dmaNum (dmaNum * 8 + channelNum) channelNum w

/-- The macro `impl_start_transfer!` (dma.rs), the body of the manual
`start_read_*` / `start_write_*` operations: derive the ISR word and bit from
the channel number, clear the sticky status, and start the transfer with the
buffer length as element count.  No bounds check is performed. -/
def impl_start_transfer (dmaNum channelNum request periAddr bufPtr bufLen : Nat)
    (dir : Dir) (size : Size) (st : St) : St × List Event :=
  let isrn := channelNum / 4
  let isrbit := channelNum % 4
  let r1 := reset_status st dmaNum isrn isrbit
  let r2 := start_transfer request dir periAddr bufPtr bufLen true dmaNum channelNum size r1.1
  (r2.1, r1.2 ++ r2.2)

/-- The completion future built by `low_level_api::do_transfer` (dma.rs)
together with its `OnDrop` guard: `armed` records whether the guard (which
runs `stop` when dropped) is still pending. -/
structure DTFut where
  d : Nat
  ch : Nat
  sn : Nat
  armed : Bool
  deriving DecidableEq, Repr

/-- The function `low_level_api::do_transfer` (dma.rs).  The
`assert!(mem_len <= 0xFFFF)` panics (`none`) before any register access.
Otherwise: clear the sticky status, create the `OnDrop` guard wrapping `stop`,
issue a release fence, start the transfer, and return the armed completion
future. -/
def do_transfer (d channelNumber stateNumber request : Nat) (dir : Dir)
    (periAddr memAddr memLen : Nat) (incrMem : Bool) (dataSize : Size) (st : St) :
    Option (DTFut × St × List Event) :=
  if memLen > 0xFFFF then none
  else
    let isrn := channelNumber / 4
    let isrbit := channelNumber % 4
    let r1 := reset_status st d isrn isrbit
    let r2 := start_transfer request dir periAddr memAddr memLen incrMem d channelNumber dataSize r1.1
    some (⟨d, channelNumber, stateNumber, true⟩, r2.1,
      r1.2 ++ Event.fenceRelease :: r2.2)

/-- One poll of the async block returned by `do_transfer`: poll the inner
completion future; when it resolves ready, `drop(on_drop)` runs the guard,
executing `stop` exactly when the guard is still armed. -/
def DTFut.poll (f : DTFut) (w : Nat) (st : St) :
    Option ((Bool × DTFut) × St × List Event) :=
  match wait_for_completion_poll st f.d f.sn f.ch w with
  | none => none
  | some (PollRes.pending, st1, ev) => some ((false, f), st1, ev)
  | some (PollRes.ready, st1, ev) =>
    if f.armed then
      let r := stop st1 f.d f.ch
      some ((true, { f with armed := false }), r.1, ev ++ r.2)
    else some ((true, f), st1, ev)

/-- Dropping the future returned by `do_transfer` before (or after)
completion: the `OnDrop` guard, if still armed, runs `stop` once. -/
def DTFut.dropFut (f : DTFut) (st : St) : St × List Event :=
  if f.armed then stop st f.d f.ch else (st, [])

/-- Modelled from the spec: the hardware (out of scope of the source) signals
completion by setting the channel's sticky transfer-complete flag. -/
def hwComplete (st : St) (d ch : Nat) : St :=
  { st with tcif := upd2 st.tcif d ch true }

/-- Repeated polling of the low-level completion future with the given list
of wakers, accumulating the event trace; the iteration stops at a panic. -/
def pollMany (d stateNumber channelNumber : Nat) (ws : List Nat) (st : St) :
    St × List Event :=
  match ws with
  | [] => (st, [])
  | w :: rest =>
    match wait_for_completion_poll st d stateNumber channelNumber w with
    | none => (st, [])
    | some (_, st1, ev) =>
      let r := pollMany d stateNumber channelNumber rest st1
      (r.1, ev ++ r.2)

end dma

namespace bdma

/-- The channel configuration register CR of one BDMA channel, holding exactly
the fields `low_level_api::start_transfer` (bdma.rs) writes.  The power-on
reset value clears every field. -/
structure Cr where
  en : Bool
  tcie : Bool
  teie : Bool
  dir : Dir
  msize : Size
  psize : Size
  minc : Inc
  deriving DecidableEq, Repr

/-- Power-on reset value of CR: all bits clear. -/
def Cr.reset : Cr :=
  ⟨false, false, false, Dir.peripheralToMemory, Size.bits8, Size.bits8, Inc.fixed⟩

/-- Registers of one BDMA channel: CR, count (NDTR, written through the
16-bit `ndt` field), peripheral address, memory address. -/
structure ChSt where
  cr : Cr
  ndtr : Nat
  par : Nat
  mar : Nat
  deriving DecidableEq, Repr

/-- Reset value of a channel's registers. -/
def ChSt.reset : ChSt := ⟨Cr.reset, 0, 0, 0⟩

/-- Register-level events for the bdma family (single flat ISR word per
controller). -/
inductive Event
  | writeIfcr (d ch : Nat)
  | writePar (d ch v : Nat)
  | writeMar (d ch v : Nat)
  | writeNdtr (d ch v : Nat)
  | writeCr (d ch : Nat) (v : Cr)
  | readCr (d ch : Nat)
  | readIsr (d : Nat)
  | fenceRelease
  | fenceAcquire
  | wakeTask (slot : Nat) (occ : Option Nat)
  deriving DecidableEq, Repr

/-- Whether an event writes a DMA register. -/
def Event.isWrite : Event → Bool
  | Event.writeIfcr _ _ => true
  | Event.writePar _ _ _ => true
  | Event.writeMar _ _ _ => true
  | Event.writeNdtr _ _ _ => true
  | Event.writeCr _ _ _ => true
  | _ => false

/-- Whether an event clears the sticky status flags (an IFCR write). -/
def Event.isStatusClear : Event → Bool
  | Event.writeIfcr _ _ => true
  | _ => false

/-- Whether an event writes a CR value whose enable bit is set. -/
def Event.isEnableWrite : Event → Bool
  | Event.writeCr _ _ v => v.en
  | _ => false

/-- Number of acquire fences in a trace; as in the dma family, `stop` is the
only primitive issuing one, so this counts stop executions. -/
def stopCount (tr : List Event) : Nat :=
  (tr.filter fun e => e = Event.fenceAcquire).length

/-- Whole-system state for the bdma family: per-channel registers, the flat
sticky status flags (`tcif d ch` is `isr.tcif(ch)` of controller `d`), and
the `STATE.ch_wakers` table.  The state table stride per controller is 8
(`CH_COUNT = peripheral_count * 8`). -/
structure St where
  chs : Nat → Nat → ChSt
  tcif : Nat → Nat → Bool
  teif : Nat → Nat → Bool
  wakers : Nat → Option Nat

/-- Boot state: all registers at reset, no flags, no wakers. -/
def St.init : St :=
  ⟨fun _ _ => ChSt.reset, fun _ _ => false, fun _ _ => false, fun _ => none⟩

/-- The function `low_level_api::reset_status` (bdma.rs): one IFCR write
clearing the channel's sticky transfer-complete and transfer-error flags. -/
def reset_status (st : St) (d channelNumber : Nat) : St × List Event :=
  ({ st with
      tcif := upd2 st.tcif d channelNumber false
      teif := upd2 st.teif d channelNumber false },
    [Event.writeIfcr d channelNumber])

/-- The function `low_level_api::start_transfer` (bdma.rs, modelled for the
`bdma_v1` configuration without dmamux, where no request routing is written):
a release fence, then program PAR, MAR, NDTR (`set_ndt(mem_len as u16)`, so
the count is the length truncated to 16 bits) and finally CR, arming both
interrupts and setting the enable bit. -/
def start_transfer (dir : Dir) (periAddr memAddr memLen : Nat) (incrMem : Bool)
    (d channelNumber : Nat) (dataSize : Size) (st : St) : St × List Event :=
  let crv : Cr :=
    { en := true, tcie := true, teie := true, dir := dir, msize := dataSize,
      psize := dataSize,
      minc := if incrMem then Inc.incremented else Inc.fixed }
  let old := st.chs d channelNumber
  ({ st with
      chs := upd2 st.chs d channelNumber
        { old with par := periAddr, mar := memAddr, ndtr := memLen % 2 ^ 16, cr := crv } },
    [Event.fenceRelease, Event.writePar d channelNumber periAddr,
      Event.writeMar d channelNumber memAddr,
      Event.writeNdtr d channelNumber (memLen % 2 ^ 16),
      Event.writeCr d channelNumber crv])

/-- The function `low_level_api::stop` (bdma.rs): write CR back to its
power-on reset value, busy-wait on the enable-bit readback (the readback
observes `en = false` immediately after the reset write), then an acquire
fence. -/
def stop (st : St) (d ch : Nat) : St × List Event :=
  let old := st.chs d ch
  ({ st with chs := upd2 st.chs d ch { old with cr := Cr.reset } },
    [Event.writeCr d ch Cr.reset, Event.readCr d ch, Event.fenceAcquire])

/-- The function `low_level_api::is_stopped` (bdma.rs): returns the CR enable
bit as read, with no state change. -/
def is_stopped (st : St) (d ch : Nat) : Bool := (st.chs d ch).cr.en

/-- The function `low_level_api::get_remaining_transfers` (bdma.rs): reads
the 16-bit `ndt` field of NDTR. -/
def get_remaining_transfers (st : St) (d ch : Nat) : Nat := (st.chs d ch).ndtr % 2 ^ 16

/-- The function `low_level_api::set_waker` (bdma.rs): registers the waker in
`STATE.ch_wakers[state_number]`; the `_dma` argument of the source is unused
there and omitted here. -/
def set_waker (st : St) (stateNumber w : Nat) : St :=
  { st with wakers := upd1 st.wakers stateNumber (some w) }

/-- One poll of the future returned by `low_level_api::wait_for_completion`
(bdma.rs): register the polling task under `stateNumber`, read the ISR word;
`none` models the `assert!(!isr.teif(..))` panic; ready exactly when the
transfer-complete flag is set. -/
def wait_for_completion_poll (st : St) (d stateNumber channelNumber w : Nat) :
    Option (PollRes × St × List Event) :=
  let st1 := set_waker st stateNumber w
  if st1.teif d channelNumber then none
  else if st1.tcif d channelNumber then
    some (PollRes.ready, st1, [Event.readIsr d])
  else
    some (PollRes.pending, st1, [Event.readIsr d])

/-- One iteration of the channel loop of `on_irq` (bdma.rs) for channel `chn`
of controller `d`: read CR; if the snapshotted transfer-complete flag and the
CR's `tcie` bit are both set, write CR back to its reset value and wake
`STATE.ch_wakers[d * 8 + chn]`. -/
def irqStep (d chn : Nat) (snap : Bool) (st : St) : St × List Event :=
  if snap && (st.chs d chn).cr.tcie then
    ({ st with chs := upd2 st.chs d chn { st.chs d chn with cr := Cr.reset } },
      [Event.readCr d chn, Event.writeCr d chn Cr.reset,
        Event.wakeTask (d * 8 + chn) (st.wakers (d * 8 + chn))])
  else (st, [Event.readCr d chn])

/-- The body of `on_irq` (bdma.rs) for one controller `d`: read the ISR word
once, then visit each of the controller's channels (modelled with the full
state-table stride of 8 channels per controller). -/
def irqInner (d : Nat) (st : St) : St × List Event :=
  let snap : Nat → Bool := fun chn => st.tcif d chn
  let r0 := irqStep d 0 (snap 0) st
  let r1 := irqStep d 1 (snap 1) r0.1
  let r2 := irqStep d 2 (snap 2) r1.1
  let r3 := irqStep d 3 (snap 3) r2.1
  let r4 := irqStep d 4 (snap 4) r3.1
  let r5 := irqStep d 5 (snap 5) r4.1
  let r6 := irqStep d 6 (snap 6) r5.1
  let r7 := irqStep d 7 (snap 7) r6.1
  (r7.1, Event.readIsr d :: (r0.2 ++ r1.2 ++ r2.2 ++ r3.2 ++ r4.2 ++ r5.2 ++ r6.2 ++ r7.2))

/-- The interrupt handler `on_irq` (bdma.rs), expanded for two controllers
(ordinals 0 and 1, per the `dma_num!` macro). -/
def on_irq (st : St) : St × List Event :=
  let a := irqInner 0 st
  let b := irqInner 1 a.1
  (b.1, a.2 ++ b.2)

/-- The macro-generated `Channel::set_waker` (bdma.rs): as in dma.rs, the
macro passes `$channel_num` — not the global `dma_num * 8 + channel_num` — as
the state table index. -/
def Channel.set_waker (dmaNum channelNum w : Nat) (st : St) : St :=
  bdma.set_waker st channelNum w

/-- One poll of the macro-generated `Channel::wait_for_completion` (bdma.rs):
the body is the stub `async move {}` (the delegation to
`low_level_api::wait_for_completion` is commented out in the source), so the
future is immediately ready, registers nothing and reads nothing. -/
def Channel.wait_for_completion_poll (dmaNum channelNum w : Nat) (st : St) :
    Option (PollRes × St × List Event) :=
  some (PollRes.ready, st, [])

/-- The macro `impl_start_transfer!` (bdma.rs), the body of the manual
`start_read_*` / `start_write_*` operations: clear the sticky status and
start the transfer with the buffer length as element count.  No bounds check
is performed. -/
def impl_start_transfer (dmaNum channelNum periAddr bufPtr bufLen : Nat)
    (dir : Dir) (size : Size) (st : St) : St × List Event :=
  let r1 := reset_status st dmaNum channelNum
  let r2 := start_transfer dir periAddr bufPtr bufLen true dmaNum channelNum size r1.1
  (r2.1, r1.2 ++ r2.2)

/-- The completion future built by `low_level_api::do_transfer` (bdma.rs)
together with its `OnDrop` guard. -/
structure BTFut where
  d : Nat
  ch : Nat
  sn : Nat
  armed : Bool
  deriving DecidableEq, Repr

/-- The function `low_level_api::do_transfer` (bdma.rs).  The
`assert!(mem_len <= 0xFFFF)` panics (`none`) before any register access.
Otherwise: clear the sticky status, create the `OnDrop` guard wrapping
`stop`, start the transfer, and return the armed completion future. -/
def do_transfer (d channelNumber stateNumber : Nat) (dir : Dir)
    (periAddr memAddr memLen : Nat) (incrMem : Bool) (dataSize : Size) (st : St) :
    Option (BTFut × St × List Event) :=
  if memLen > 0xFFFF then none
  else
    let r1 := reset_status st d channelNumber
    let r2 := start_transfer dir periAddr memAddr memLen incrMem d channelNumber dataSize r1.1
    some (⟨d, channelNumber, stateNumber, true⟩, r2.1, r1.2 ++ r2.2)

/-- One poll of the async block returned by `do_transfer` (bdma.rs): poll the
inner completion future; on ready, `drop(on_drop)` runs the guard, executing
`stop` exactly when the guard is still armed. -/
def BTFut.poll (f : BTFut) (w : Nat) (st : St) :
    Option ((Bool × BTFut) × St × List Event) :=
  match wait_for_completion_poll st f.d f.sn f.ch w with
  | none => none
  | some (PollRes.pending, st1, ev) => some ((false, f), st1, ev)
  | some (PollRes.ready, st1, ev) =>
    if f.armed then
      let r := stop st1 f.d f.ch
      some ((true, { f with armed := false }), r.1, ev ++ r.2)
    else some ((true, f), st1, ev)

/-- Dropping the future returned by `do_transfer` (bdma.rs): the `OnDrop`
guard, if still armed, runs `stop` once. -/
def BTFut.dropFut (f : BTFut) (st : St) : St × List Event :=
  if f.armed then stop st f.d f.ch else (st, [])

/-- Modelled from the spec: the hardware signals completion by setting the
channel's sticky transfer-complete flag. -/
def hwComplete (st : St) (d ch : Nat) : St :=
  { st with tcif := upd2 st.tcif d ch true }

/-- Repeated polling of the low-level completion future (bdma.rs) with the
given list of wakers; the iteration stops at a panic. -/
def pollMany (d stateNumber channelNumber : Nat) (ws : List Nat) (st : St) :
    St × List Event :=
  match ws with
  | [] => (st, [])
  | w :: rest =>
    match wait_for_completion_poll st d stateNumber channelNumber w with
    | none => (st, [])
    | some (_, st1, ev) =>
      let r := pollMany d stateNumber channelNumber rest st1
      (r.1, ev ++ r.2)

end bdma

namespace dma

/-- Whether an event is an access (read or write) of channel `(d, c)`'s CR. -/
def touchesCr (d c : Nat) : Event → Bool
  | Event.readCr a b => a = d && b = c
  | Event.writeCr a b _ => a = d && b = c
  | _ => false

@[simp]
theorem irqStep_fst_tcif (d isrn chn : Nat) (b : Bool) (st : St) :
    ((irqStep d isrn chn b st).1).tcif = st.tcif := by
  unfold irqStep; split <;> rfl

@[simp]
theorem irqStep_fst_teif (d isrn chn : Nat) (b : Bool) (st : St) :
    ((irqStep d isrn chn b st).1).teif = st.teif := by
  unfold irqStep; split <;> rfl

@[simp]
theorem irqStep_fst_wakers (d isrn chn : Nat) (b : Bool) (st : St) :
    ((irqStep d isrn chn b st).1).wakers = st.wakers := by
  unfold irqStep; split <;> rfl

theorem irqStep_chs_ne (d isrn chn : Nat) (b : Bool) (st : St) (a n' : Nat)
    (h : ¬(a = d ∧ n' = isrn * 4 + chn)) :
    ((irqStep d isrn chn b st).1).chs a n' = st.chs a n' := by
  unfold irqStep; split
  · exact upd2_other _ _ _ _ _ _ h
  · rfl

theorem irqStep_chs_self (d isrn chn n' : Nat) (b : Bool) (st : St)
    (h : n' = isrn * 4 + chn) :
    ((irqStep d isrn chn b st).1).chs d n' =
      (if (b && (st.chs d n').cr.tcie) = true
        then { st.chs d n' with cr := Cr.reset } else st.chs d n') := by
  subst h
  unfold irqStep
  split <;> rename_i hcond
  · simp [hcond]
  · simp [hcond]

theorem irqStep_wake_mem (d isrn chn : Nat) (b : Bool) (st : St) (slot : Nat)
    (occ : Option Nat) :
    (Event.wakeTask slot occ ∈ (irqStep d isrn chn b st).2) ↔
      ((b && (st.chs d (isrn * 4 + chn)).cr.tcie) = true ∧
        slot = d * 8 + (isrn * 4 + chn) ∧
        occ = st.wakers (d * 8 + (isrn * 4 + chn))) := by
  unfold irqStep
  split <;> rename_i hcond <;> simp_all

theorem irqStep_no_acquire (d isrn chn : Nat) (b : Bool) (st : St) :
    Event.fenceAcquire ∉ (irqStep d isrn chn b st).2 := by
  unfold irqStep
  split <;> simp

theorem irqStep_filter_ne (d isrn chn : Nat) (b : Bool) (st : St) (d0 c0 : Nat)
    (h : ¬(d = d0 ∧ isrn * 4 + chn = c0)) :
    ((irqStep d isrn chn b st).2).filter (touchesCr d0 c0) = [] := by
  rcases not_and_or.mp h with h1 | h1 <;>
    · unfold irqStep
      split <;> simp [touchesCr, List.filter, h1]

theorem irqStep_filter_self (d isrn chn c0 : Nat) (b : Bool) (st : St)
    (h : c0 = isrn * 4 + chn) :
    ((irqStep d isrn chn b st).2).filter (touchesCr d c0) =
      (if (b && (st.chs d c0).cr.tcie) = true
        then [Event.readCr d c0, Event.writeCr d c0 Cr.reset]
        else [Event.readCr d c0]) := by
  subst h
  unfold irqStep
  split <;> rename_i hcond <;> simp_all [touchesCr, List.filter]

@[simp]
theorem on_irq_fst_tcif (st : St) : ((on_irq st).1).tcif = st.tcif := by
  simp [on_irq, irqInner]

@[simp]
theorem on_irq_fst_teif (st : St) : ((on_irq st).1).teif = st.teif := by
  simp [on_irq, irqInner]

@[simp]
theorem on_irq_fst_wakers (st : St) : ((on_irq st).1).wakers = st.wakers := by
  simp [on_irq, irqInner]

theorem on_irq_chs_char (st : St) (d c : Nat) (hd : d < 2) (hc : c < 8) :
    ((on_irq st).1).chs d c =
      (if (st.tcif d c && (st.chs d c).cr.tcie) = true
        then { st.chs d c with cr := Cr.reset } else st.chs d c) := by
  interval_cases d <;> interval_cases c <;>
    simp [on_irq, irqInner, irqStep_chs_ne, irqStep_chs_self]

set_option maxHeartbeats 2000000 in
theorem on_irq_wake_mem (st : St) (d c : Nat) (hd : d < 2) (hc : c < 8)
    (occ : Option Nat) :
    (Event.wakeTask (d * 8 + c) occ ∈ (on_irq st).2) ↔
      ((st.tcif d c && (st.chs d c).cr.tcie) = true ∧ occ = st.wakers (d * 8 + c)) := by
  interval_cases d <;> interval_cases c <;>
    simp [on_irq, irqInner, irqStep_wake_mem, irqStep_chs_ne]

theorem on_irq_no_acquire (st : St) : Event.fenceAcquire ∉ (on_irq st).2 := by
  have h : ∀ d isrn chn b st1,
      (Event.fenceAcquire ∈ (irqStep d isrn chn b st1).2) = False := by
    intro d isrn chn b st1
    simp [irqStep_no_acquire d isrn chn b st1]
  simp [on_irq, irqInner, h]

set_option maxHeartbeats 2000000 in
theorem on_irq_filter_cr (st : St) (d c : Nat) (hd : d < 2) (hc : c < 8) :
    ((on_irq st).2).filter (touchesCr d c) =
      (if (st.tcif d c && (st.chs d c).cr.tcie) = true
        then [Event.readCr d c, Event.writeCr d c Cr.reset]
        else [Event.readCr d c]) := by
  interval_cases d <;> interval_cases c <;>
    simp [on_irq, irqInner, List.filter_append, List.filter_cons, touchesCr,
      irqStep_filter_ne, irqStep_filter_self, irqStep_chs_ne]

end dma

namespace bdma

/-- Whether an event is an access (read or write) of channel `(d, c)`'s CR. -/
def touchesCr (d c : Nat) : Event → Bool
  | Event.readCr a b => a = d && b = c
  | Event.writeCr a b _ => a = d && b = c
  | _ => false

@[simp]
theorem birqStep_fst_tcif (d chn : Nat) (b : Bool) (st : St) :
    ((irqStep d chn b st).1).tcif = st.tcif := by
  unfold irqStep; split <;> rfl

@[simp]
theorem birqStep_fst_teif (d chn : Nat) (b : Bool) (st : St) :
    ((irqStep d chn b st).1).teif = st.teif := by
  unfold irqStep; split <;> rfl

@[simp]
theorem birqStep_fst_wakers (d chn : Nat) (b : Bool) (st : St) :
    ((irqStep d chn b st).1).wakers = st.wakers := by
  unfold irqStep; split <;> rfl

theorem birqStep_chs_ne (d chn : Nat) (b : Bool) (st : St) (a n' : Nat)
    (h : ¬(a = d ∧ n' = chn)) :
    ((irqStep d chn b st).1).chs a n' = st.chs a n' := by
  unfold irqStep; split
  · exact upd2_other _ _ _ _ _ _ h
  · rfl

theorem birqStep_chs_self (d chn n' : Nat) (b : Bool) (st : St) (h : n' = chn) :
    ((irqStep d chn b st).1).chs d n' =
      (if (b && (st.chs d n').cr.tcie) = true
        then { st.chs d n' with cr := Cr.reset } else st.chs d n') := by
  subst h
  unfold irqStep
  split <;> rename_i hcond
  · simp [hcond]
  · simp [hcond]

theorem birqStep_wake_mem (d chn : Nat) (b : Bool) (st : St) (slot : Nat)
    (occ : Option Nat) :
    (Event.wakeTask slot occ ∈ (irqStep d chn b st).2) ↔
      ((b && (st.chs d chn).cr.tcie) = true ∧
        slot = d * 8 + chn ∧ occ = st.wakers (d * 8 + chn)) := by
  unfold irqStep
  split <;> rename_i hcond <;> simp_all

theorem birqStep_no_acquire (d chn : Nat) (b : Bool) (st : St) :
    Event.fenceAcquire ∉ (irqStep d chn b st).2 := by
  unfold irqStep
  split <;> simp

theorem birqStep_filter_ne (d chn : Nat) (b : Bool) (st : St) (d0 c0 : Nat)
    (h : ¬(d = d0 ∧ chn = c0)) :
    ((irqStep d chn b st).2).filter (touchesCr d0 c0) = [] := by
  rcases not_and_or.mp h with h1 | h1 <;>
    · unfold irqStep
      split <;> simp [touchesCr, List.filter, h1]

theorem birqStep_filter_self (d chn c0 : Nat) (b : Bool) (st : St) (h : c0 = chn) :
    ((irqStep d chn b st).2).filter (touchesCr d c0) =
      (if (b && (st.chs d c0).cr.tcie) = true
        then [Event.readCr d c0, Event.writeCr d c0 Cr.reset]
        else [Event.readCr d c0]) := by
  subst h
  unfold irqStep
  split <;> rename_i hcond <;> simp_all [touchesCr, List.filter]

@[simp]
theorem bon_irq_fst_tcif (st : St) : ((on_irq st).1).tcif = st.tcif := by
  simp [on_irq, irqInner]

@[simp]
theorem bon_irq_fst_teif (st : St) : ((on_irq st).1).teif = st.teif := by
  simp [on_irq, irqInner]

@[simp]
theorem bon_irq_fst_wakers (st : St) : ((on_irq st).1).wakers = st.wakers := by
  simp [on_irq, irqInner]

set_option maxHeartbeats 2000000 in
theorem bon_irq_chs_char (st : St) (d c : Nat) (hd : d < 2) (hc : c < 8) :
    ((on_irq st).1).chs d c =
      (if (st.tcif d c && (st.chs d c).cr.tcie) = true
        then { st.chs d c with cr := Cr.reset } else st.chs d c) := by
  interval_cases d <;> interval_cases c <;>
    simp [on_irq, irqInner, birqStep_chs_ne, birqStep_chs_self]

set_option maxHeartbeats 2000000 in
theorem bon_irq_wake_mem (st : St) (d c : Nat) (hd : d < 2) (hc : c < 8)
    (occ : Option Nat) :
    (Event.wakeTask (d * 8 + c) occ ∈ (on_irq st).2) ↔
      ((st.tcif d c && (st.chs d c).cr.tcie) = true ∧ occ = st.wakers (d * 8 + c)) := by
  interval_cases d <;> interval_cases c <;>
    simp [on_irq, irqInner, birqStep_wake_mem, birqStep_chs_ne]

theorem bon_irq_no_acquire (st : St) : Event.fenceAcquire ∉ (on_irq st).2 := by
  have h : ∀ d chn b st1, (Event.fenceAcquire ∈ (irqStep d chn b st1).2) = False := by
    intro d chn b st1
    simp [birqStep_no_acquire d chn b st1]
  simp [on_irq, irqInner, h]

set_option maxHeartbeats 2000000 in
theorem bon_irq_filter_cr (st : St) (d c : Nat) (hd : d < 2) (hc : c < 8) :
    ((on_irq st).2).filter (touchesCr d c) =
      (if (st.tcif d c && (st.chs d c).cr.tcie) = true
        then [Event.readCr d c, Event.writeCr d c Cr.reset]
        else [Event.readCr d c]) := by
  interval_cases d <;> interval_cases c <;>
    simp [on_irq, irqInner, List.filter_append, List.filter_cons, touchesCr,
      birqStep_filter_ne, birqStep_filter_self, birqStep_chs_ne]

end bdma

namespace dma

/-- The waker invocations recorded in a trace. -/
def wakeEvents (tr : List Event) : List Event :=
  tr.filter fun e => match e with
    | Event.wakeTask _ _ => true
    | _ => false

/-- Iterated polling of a `do_transfer` future with the given wakers,
threading the returned future and state and accumulating the trace. -/
def runPolls (f : DTFut) (ws : List Nat) (st : St) :
    Option (DTFut × St × List Event) :=
  match ws with
  | [] => some (f, st, [])
  | w :: rest =>
    match DTFut.poll f w st with
    | none => none
    | some ((_, f1), st1, ev) =>
      match runPolls f1 rest st1 with
      | none => none
      | some (f2, st2, ev2) => some (f2, st2, ev ++ ev2)

theorem set_waker_tcif (st : St) (sn w : Nat) : (set_waker st sn w).tcif = st.tcif := rfl

theorem set_waker_teif (st : St) (sn w : Nat) : (set_waker st sn w).teif = st.teif := rfl

theorem set_waker_chs (st : St) (sn w : Nat) : (set_waker st sn w).chs = st.chs := rfl

/-- One poll of the low-level completion future while the channel's sticky
flags are clear: the poll registers the waker, reads the ISR word and reports
pending; nothing else changes. -/
theorem poll_pending_eq (st : St) (d sn cn w : Nat)
    (ht : st.tcif d cn = false) (he : st.teif d cn = false) :
    wait_for_completion_poll st d sn cn w =
      some (PollRes.pending, set_waker st sn w, [Event.readIsr d (cn / 4)]) := by
  unfold wait_for_completion_poll
  have hix : cn / 4 * 4 + cn % 4 = cn := by omega
  simp only [set_waker_tcif, set_waker_teif, hix, ht, he]
  simp

/-- One poll of the low-level completion future when the transfer-complete
flag is set and no error is flagged: the poll registers the waker, reads the
ISR word and reports ready. -/
theorem poll_ready_eq (st : St) (d sn cn w : Nat)
    (ht : st.tcif d cn = true) (he : st.teif d cn = false) :
    wait_for_completion_poll st d sn cn w =
      some (PollRes.ready, set_waker st sn w, [Event.readIsr d (cn / 4)]) := by
  unfold wait_for_completion_poll
  have hix : cn / 4 * 4 + cn % 4 = cn := by omega
  simp only [set_waker_tcif, set_waker_teif, hix, ht, he]
  simp

/-- Polling the async block of `do_transfer` while the flags are clear:
pending, the future (and its armed guard) unchanged, no stop executed. -/
theorem dtfut_poll_pending (f : DTFut) (w : Nat) (st : St)
    (ht : st.tcif f.d f.ch = false) (he : st.teif f.d f.ch = false) :
    DTFut.poll f w st =
      some ((false, f), set_waker st f.sn w, [Event.readIsr f.d (f.ch / 4)]) := by
  unfold DTFut.poll
  rw [poll_pending_eq st f.d f.sn f.ch w ht he]

/-- Iterated pending polls: while the channel's sticky flags stay clear, any
number of polls leaves the future unchanged, executes no stop, and keeps the
flags clear. -/
theorem runPolls_pending (f : DTFut) (ws : List Nat) (st : St)
    (ht : st.tcif f.d f.ch = false) (he : st.teif f.d f.ch = false) :
    ∃ st2 tr2, runPolls f ws st = some (f, st2, tr2) ∧
      stopCount tr2 = 0 ∧ st2.tcif f.d f.ch = false ∧ st2.teif f.d f.ch = false ∧
      st2.chs = st.chs := by
  induction ws generalizing st with
  | nil => exact ⟨st, [], rfl, rfl, ht, he, rfl⟩
  | cons w rest ih =>
    have hstep := dtfut_poll_pending f w st ht he
    have ht1 : (set_waker st f.sn w).tcif f.d f.ch = false := by
      rw [set_waker_tcif]; exact ht
    have he1 : (set_waker st f.sn w).teif f.d f.ch = false := by
      rw [set_waker_teif]; exact he
    obtain ⟨st2, tr2, hrun, hsc, ht2, he2, hchs⟩ := ih (set_waker st f.sn w) ht1 he1
    refine ⟨st2, Event.readIsr f.d (f.ch / 4) :: tr2, ?_, ?_, ht2, he2, ?_⟩
    · unfold runPolls
      rw [hstep]
      simp [hrun]
    · simpa [stopCount] using hsc
    · rw [hchs, set_waker_chs]

@[simp]
theorem start_transfer_fst_tcif (rq : Nat) (dir : Dir) (pa ma n : Nat) (im : Bool)
    (d ch : Nat) (sz : Size) (st : St) :
    ((start_transfer rq dir pa ma n im d ch sz st).1).tcif = st.tcif := rfl

@[simp]
theorem start_transfer_fst_teif (rq : Nat) (dir : Dir) (pa ma n : Nat) (im : Bool)
    (d ch : Nat) (sz : Size) (st : St) :
    ((start_transfer rq dir pa ma n im d ch sz st).1).teif = st.teif := rfl

/-- Successful `do_transfer` (dma.rs): the count is in range, so the armed
future is returned, the channel's sticky flags end up clear, and the start
trace contains no stop execution. -/
theorem do_transfer_char (d ch sn rq : Nat) (dir : Dir) (pa ma n : Nat)
    (im : Bool) (sz : Size) (st : St) (h : ¬n > 0xFFFF) :
    ∃ st1 tr1,
      do_transfer d ch sn rq dir pa ma n im sz st =
        some (⟨d, ch, sn, true⟩, st1, tr1) ∧
      st1.tcif d ch = false ∧ st1.teif d ch = false ∧ stopCount tr1 = 0 := by
  refine ⟨(start_transfer rq dir pa ma n im d ch sz
      (reset_status st d (ch / 4) (ch % 4)).1).1,
    (reset_status st d (ch / 4) (ch % 4)).2 ++ Event.fenceRelease ::
      (start_transfer rq dir pa ma n im d ch sz
        (reset_status st d (ch / 4) (ch % 4)).1).2, ?_, ?_, ?_, ?_⟩
  · unfold do_transfer
    simp [h]
  · have hix : ch / 4 * 4 + ch % 4 = ch := by omega
    simp [reset_status, hix]
  · have hix : ch / 4 * 4 + ch % 4 = ch := by omega
    simp [reset_status, hix]
  · simp [reset_status, start_transfer, stopCount]

end dma

namespace bdma

/-- The waker invocations recorded in a trace. -/
def wakeEvents (tr : List Event) : List Event :=
  tr.filter fun e => match e with
    | Event.wakeTask _ _ => true
    | _ => false

/-- Iterated polling of a `do_transfer` future (bdma.rs) with the given
wakers. -/
def runPolls (f : BTFut) (ws : List Nat) (st : St) :
    Option (BTFut × St × List Event) :=
  match ws with
  | [] => some (f, st, [])
  | w :: rest =>
    match BTFut.poll f w st with
    | none => none
    | some ((_, f1), st1, ev) =>
      match runPolls f1 rest st1 with
      | none => none
      | some (f2, st2, ev2) => some (f2, st2, ev ++ ev2)

theorem bset_waker_tcif (st : St) (sn w : Nat) : (set_waker st sn w).tcif = st.tcif := rfl

theorem bset_waker_teif (st : St) (sn w : Nat) : (set_waker st sn w).teif = st.teif := rfl

theorem bset_waker_chs (st : St) (sn w : Nat) : (set_waker st sn w).chs = st.chs := rfl

/-- One poll of the low-level completion future (bdma.rs) while the channel's
sticky flags are clear: register the waker, read the ISR word, report
pending. -/
theorem bpoll_pending_eq (st : St) (d sn cn w : Nat)
    (ht : st.tcif d cn = false) (he : st.teif d cn = false) :
    wait_for_completion_poll st d sn cn w =
      some (PollRes.pending, set_waker st sn w, [Event.readIsr d]) := by
  unfold wait_for_completion_poll
  simp only [bset_waker_tcif, bset_waker_teif, ht, he]
  simp

/-- One poll of the low-level completion future (bdma.rs) when the
transfer-complete flag is set and no error is flagged: ready. -/
theorem bpoll_ready_eq (st : St) (d sn cn w : Nat)
    (ht : st.tcif d cn = true) (he : st.teif d cn = false) :
    wait_for_completion_poll st d sn cn w =
      some (PollRes.ready, set_waker st sn w, [Event.readIsr d]) := by
  unfold wait_for_completion_poll
  simp only [bset_waker_tcif, bset_waker_teif, ht, he]
  simp

/-- Polling the async block of `do_transfer` (bdma.rs) while the flags are
clear: pending, the future unchanged, no stop executed. -/
theorem btfut_poll_pending (f : BTFut) (w : Nat) (st : St)
    (ht : st.tcif f.d f.ch = false) (he : st.teif f.d f.ch = false) :
    BTFut.poll f w st =
      some ((false, f), set_waker st f.sn w, [Event.readIsr f.d]) := by
  unfold BTFut.poll
  rw [bpoll_pending_eq st f.d f.sn f.ch w ht he]

/-- Iterated pending polls (bdma.rs): any number of polls leaves the future
unchanged, executes no stop, and keeps the flags clear. -/
theorem brunPolls_pending (f : BTFut) (ws : List Nat) (st : St)
    (ht : st.tcif f.d f.ch = false) (he : st.teif f.d f.ch = false) :
    ∃ st2 tr2, runPolls f ws st = some (f, st2, tr2) ∧
      stopCount tr2 = 0 ∧ st2.tcif f.d f.ch = false ∧ st2.teif f.d f.ch = false ∧
      st2.chs = st.chs := by
  induction ws generalizing st with
  | nil => exact ⟨st, [], rfl, rfl, ht, he, rfl⟩
  | cons w rest ih =>
    have hstep := btfut_poll_pending f w st ht he
    have ht1 : (set_waker st f.sn w).tcif f.d f.ch = false := by
      rw [bset_waker_tcif]; exact ht
    have he1 : (set_waker st f.sn w).teif f.d f.ch = false := by
      rw [bset_waker_teif]; exact he
    obtain ⟨st2, tr2, hrun, hsc, ht2, he2, hchs⟩ := ih (set_waker st f.sn w) ht1 he1
    refine ⟨st2, Event.readIsr f.d :: tr2, ?_, ?_, ht2, he2, ?_⟩
    · unfold runPolls
      rw [hstep]
      simp [hrun]
    · simpa [stopCount] using hsc
    · rw [hchs, bset_waker_chs]

@[simp]
theorem bstart_transfer_fst_tcif (dir : Dir) (pa ma n : Nat) (im : Bool)
    (d ch : Nat) (sz : Size) (st : St) :
    ((start_transfer dir pa ma n im d ch sz st).1).tcif = st.tcif := rfl

@[simp]
theorem bstart_transfer_fst_teif (dir : Dir) (pa ma n : Nat) (im : Bool)
    (d ch : Nat) (sz : Size) (st : St) :
    ((start_transfer dir pa ma n im d ch sz st).1).teif = st.teif := rfl

/-- Successful `do_transfer` (bdma.rs): the armed future is returned, the
channel's sticky flags end up clear, and the start trace contains no stop
execution. -/
theorem bdo_transfer_char (d ch sn : Nat) (dir : Dir) (pa ma n : Nat)
    (im : Bool) (sz : Size) (st : St) (h : ¬n > 0xFFFF) :
    ∃ st1 tr1,
      do_transfer d ch sn dir pa ma n im sz st =
        some (⟨d, ch, sn, true⟩, st1, tr1) ∧
      st1.tcif d ch = false ∧ st1.teif d ch = false ∧ stopCount tr1 = 0 := by
  refine ⟨(start_transfer dir pa ma n im d ch sz (reset_status st d ch).1).1,
    (reset_status st d ch).2 ++
      (start_transfer dir pa ma n im d ch sz (reset_status st d ch).1).2,
    ?_, ?_, ?_, ?_⟩
  · unfold do_transfer
    simp [h]
  · simp [reset_status]
  · simp [reset_status]
  · simp [reset_status, start_transfer, stopCount]

end bdma

/-- Example state for the waker-slot analysis: on DMA2 (controller ordinal 1)
stream 0 a transfer is armed (enable and both interrupt enables set) and the
hardware transfer-complete flag has fired, after the owning task registered
waker 42 through the public `Channel::set_waker`. -/
def exStC1 : dma.St :=
  { dma.Channel.set_waker 1 0 42 dma.St.init with
    tcif := upd2 (dma.Channel.set_waker 1 0 42 dma.St.init).tcif 1 0 true
    chs := upd2 (dma.Channel.set_waker 1 0 42 dma.St.init).chs 1 0
      { dma.ChSt.reset with
        cr := { dma.Cr.reset with en := true, tcie := true, teie := true } } }

/-- C1: the claim states that the slot `Channel::set_waker` registers into
equals the slot `on_irq` wakes, namely `dma_num * 8 + channel_num`.  On the
code this fails for every channel of the second controller: `set_waker`
passes `$channel_num` as the state-table index, so for DMA2 stream 0 the
waker lands in slot 0, while `on_irq` wakes slot `1 * 8 + 0 = 8` — whose
occupant is `none`, so the registered task 42 is never woken. -/
theorem c1_set_waker_slot_mismatch :
    (dma.Channel.set_waker 1 0 42 dma.St.init).wakers 0 = some 42 ∧
    (dma.Channel.set_waker 1 0 42 dma.St.init).wakers 8 = none ∧
    dma.wakeEvents (dma.on_irq exStC1).2 = [dma.Event.wakeTask 8 none] := by
  refine ⟨by decide, by decide, by decide⟩

/-- C2: the claim states that on every hardware family each poll of the
public `wait_for_completion` future reads the status register and resolves
ready only when the complete flag is set.  On the bdma family the
macro-generated `Channel::wait_for_completion` body is the stub
`async move {}`: polled at the boot state, whose transfer-complete flag is
clear, it resolves ready immediately, registering nothing and reading no
register. -/
theorem c2_bdma_completion_stub_always_ready :
    bdma.Channel.wait_for_completion_poll 0 0 7 bdma.St.init =
      some (PollRes.ready, bdma.St.init, []) ∧
    bdma.St.init.tcif 0 0 = false :=
  ⟨rfl, rfl⟩

/-- Example state for the stop analysis: channel (0, 0) currently enabled. -/
def exStC3 : dma.St :=
  { dma.St.init with
    chs := upd2 dma.St.init.chs 0 0
      { dma.ChSt.reset with cr := { dma.Cr.reset with en := true } } }

/-- C3 counterexample: the claim states `is_stopped` returns `true` after
`stop`.  On an enabled channel, after `stop` returns, `is_stopped` — which
returns the raw enable bit — returns `false`. -/
theorem c3_is_stopped_counterexample :
    dma.is_stopped exStC3 0 0 = true ∧
    dma.is_stopped ((dma.stop exStC3 0 0).1) 0 0 = false := by
  refine ⟨by decide, by decide⟩

/-- C3 (amended): after `stop(channel)` returns, the channel's hardware
enable bit reads false on both families; `is_stopped` reads the enable bit
with no side effects and returns it unnegated, so after `stop` it returns
`false` (it reports whether the channel is running, despite its name). -/
theorem c3_stop_clears_enable (st : dma.St) (stB : bdma.St) (d ch : Nat) :
    ((dma.stop st d ch).1.chs d ch).cr.en = false ∧
    dma.is_stopped (dma.stop st d ch).1 d ch = false ∧
    dma.is_stopped st d ch = (st.chs d ch).cr.en ∧
    ((bdma.stop stB d ch).1.chs d ch).cr.en = false ∧
    bdma.is_stopped (bdma.stop stB d ch).1 d ch = false ∧
    bdma.is_stopped stB d ch = (stB.chs d ch).cr.en := by
  refine ⟨?_, ?_, rfl, ?_, ?_, rfl⟩ <;>
    simp [dma.stop, dma.is_stopped, bdma.stop, bdma.is_stopped,
      dma.Cr.reset, bdma.Cr.reset]

/-- C4 counterexample: the claim states that for an oversized element count
no DMA register write occurs on the manual start path either.  Starting a
write of 65536 elements through `impl_start_transfer!` (dma.rs) does write
the count register (with the raw 32-bit cast of the length). -/
theorem c4_oversize_start_counterexample :
    dma.Event.writeNdtr 0 0 65536 ∈
      (dma.impl_start_transfer 0 0 0 0 0 65536 Dir.memoryToPeripheral Size.bits8
        dma.St.init).2 := by
  decide

/-- C4 (amended): for every element count above 65535 the one-shot
`do_transfer` operations of both families fail by assertion before any
register access, but the manual `start_read_*`/`start_write_*` operations
perform no bounds check: they do write DMA registers for the oversized
count. -/
theorem c4_oversize_one_shot_fails_manual_start_writes
    (d ch sn rq pa ma n : Nat) (dir : Dir) (im : Bool) (sz : Size)
    (st : dma.St) (stB : bdma.St) (h : n > 0xFFFF) :
    dma.do_transfer d ch sn rq dir pa ma n im sz st = none ∧
    bdma.do_transfer d ch sn dir pa ma n im sz stB = none ∧
    ((dma.impl_start_transfer d ch rq pa ma n dir sz st).2.filter
      (fun e => e.isWrite)) ≠ [] ∧
    ((bdma.impl_start_transfer d ch pa ma n dir sz stB).2.filter
      (fun e => e.isWrite)) ≠ [] := by
  refine ⟨?_, ?_, ?_, ?_⟩
  · unfold dma.do_transfer
    simp [h]
  · unfold bdma.do_transfer
    simp [h]
  · simp [dma.impl_start_transfer, dma.reset_status, dma.start_transfer,
      List.filter, dma.Event.isWrite]
  · simp [bdma.impl_start_transfer, bdma.reset_status, bdma.start_transfer,
      List.filter, bdma.Event.isWrite]

/-- C4 witness: the amended statement instantiated at count 65536 on channel
(0, 0) of each family, from the boot state. -/
theorem c4_oversize_witness :
    dma.do_transfer 0 0 0 0 Dir.memoryToPeripheral 0 0 65536 true Size.bits8
        dma.St.init = none ∧
    bdma.do_transfer 0 0 0 Dir.memoryToPeripheral 0 0 65536 true Size.bits8
        bdma.St.init = none ∧
    ((dma.impl_start_transfer 0 0 0 0 0 65536 Dir.memoryToPeripheral Size.bits8
        dma.St.init).2.filter (fun e => e.isWrite)) ≠ [] ∧
    ((bdma.impl_start_transfer 0 0 0 0 65536 Dir.memoryToPeripheral Size.bits8
        bdma.St.init).2.filter (fun e => e.isWrite)) ≠ [] :=
  c4_oversize_one_shot_fails_manual_start_writes 0 0 0 0 0 0 65536
    Dir.memoryToPeripheral true Size.bits8 dma.St.init bdma.St.init (by decide)

/-- C9: every manual `start_read_*`/`start_write_*` call with a buffer of
length `n` programs the hardware count (the 16-bit `ndt` field reads back
`n mod 65536`), enables the channel, and raises no error — the operations are
total and perform no check before the cast. -/
theorem c9_manual_start_truncates_count (d ch rq pa bp n : Nat) (dir : Dir)
    (sz : Size) (st : dma.St) (stB : bdma.St) :
    dma.get_remaining_transfers
        (dma.impl_start_transfer d ch rq pa bp n dir sz st).1 d ch = n % 65536 ∧
    ((dma.impl_start_transfer d ch rq pa bp n dir sz st).1.chs d ch).cr.en = true ∧
    bdma.get_remaining_transfers
        (bdma.impl_start_transfer d ch pa bp n dir sz stB).1 d ch = n % 65536 ∧
    ((bdma.impl_start_transfer d ch pa bp n dir sz stB).1.chs d ch).cr.en = true := by
  refine ⟨?_, ?_, ?_, ?_⟩
  · simp only [dma.impl_start_transfer, dma.reset_status, dma.start_transfer,
      dma.get_remaining_transfers, upd2_same]
    omega
  · simp [dma.impl_start_transfer, dma.reset_status, dma.start_transfer]
  · simp [bdma.impl_start_transfer, bdma.reset_status, bdma.start_transfer,
      bdma.get_remaining_transfers]
  · simp [bdma.impl_start_transfer, bdma.reset_status, bdma.start_transfer]

/-- C6: when the interrupt handler runs, every channel (of either family)
whose transfer-complete flag and completion-interrupt enable are both set has
its CR written back to reset — clearing the interrupt enable — and the waker
stored in its state-table slot `d * 8 + c` woken; every channel not
satisfying both conditions keeps its control register unchanged and its slot
is not woken. -/
theorem c6_irq_services_exactly_flagged (st : dma.St) (stB : bdma.St)
    (d c : Nat) (hd : d < 2) (hc : c < 8) :
    (((st.tcif d c && (st.chs d c).cr.tcie) = true →
        ((dma.on_irq st).1.chs d c).cr = dma.Cr.reset ∧
        dma.Event.wakeTask (d * 8 + c) (st.wakers (d * 8 + c)) ∈ (dma.on_irq st).2) ∧
      (¬(st.tcif d c && (st.chs d c).cr.tcie) = true →
        (dma.on_irq st).1.chs d c = st.chs d c ∧
        ∀ occ, dma.Event.wakeTask (d * 8 + c) occ ∉ (dma.on_irq st).2)) ∧
    (((stB.tcif d c && (stB.chs d c).cr.tcie) = true →
        ((bdma.on_irq stB).1.chs d c).cr = bdma.Cr.reset ∧
        bdma.Event.wakeTask (d * 8 + c) (stB.wakers (d * 8 + c)) ∈ (bdma.on_irq stB).2) ∧
      (¬(stB.tcif d c && (stB.chs d c).cr.tcie) = true →
        (bdma.on_irq stB).1.chs d c = stB.chs d c ∧
        ∀ occ, bdma.Event.wakeTask (d * 8 + c) occ ∉ (bdma.on_irq stB).2)) := by
  constructor
  · constructor
    · intro hcond
      constructor
      · rw [dma.on_irq_chs_char st d c hd hc, if_pos hcond]
      · exact (dma.on_irq_wake_mem st d c hd hc _).2 ⟨hcond, rfl⟩
    · intro hcond
      constructor
      · rw [dma.on_irq_chs_char st d c hd hc, if_neg hcond]
      · intro occ hmem
        exact hcond ((dma.on_irq_wake_mem st d c hd hc occ).1 hmem).1
  · constructor
    · intro hcond
      constructor
      · rw [bdma.bon_irq_chs_char stB d c hd hc, if_pos hcond]
      · exact (bdma.bon_irq_wake_mem stB d c hd hc _).2 ⟨hcond, rfl⟩
    · intro hcond
      constructor
      · rw [bdma.bon_irq_chs_char stB d c hd hc, if_neg hcond]
      · intro occ hmem
        exact hcond ((bdma.bon_irq_wake_mem stB d c hd hc occ).1 hmem).1

/-- C6 witness: on the concrete completed-transfer state for DMA2 stream 0,
the handler resets that stream's CR and wakes slot 8 (whose occupant is
`none`, per the slot mismatch recorded for C1). -/
theorem c6_irq_witness :
    ((dma.on_irq exStC1).1.chs 1 0).cr = dma.Cr.reset ∧
    dma.Event.wakeTask 8 none ∈ (dma.on_irq exStC1).2 := by
  have h := (c6_irq_services_exactly_flagged exStC1 bdma.St.init 1 0
    (by decide) (by decide)).1.1 (by decide)
  exact ⟨h.1, h.2⟩

/-- Frame property of one low-level completion poll (dma.rs): when it does
not panic, the hardware registers and flags are unchanged and the trace is
one ISR read. -/
theorem dma_poll_frame (st : dma.St) (d sn cn w : Nat) (r : PollRes)
    (st1 : dma.St) (ev : List dma.Event)
    (h : dma.wait_for_completion_poll st d sn cn w = some (r, st1, ev)) :
    st1.chs = st.chs ∧ st1.tcif = st.tcif ∧ st1.teif = st.teif ∧
    ev = [dma.Event.readIsr d (cn / 4)] := by
  simp only [dma.wait_for_completion_poll] at h
  split at h
  · exact absurd h (by simp)
  · split at h <;>
    · simp only [Option.some.injEq, Prod.mk.injEq] at h
      obtain ⟨-, h2, h3⟩ := h
      subst h2 h3
      exact ⟨rfl, rfl, rfl, rfl⟩

/-- Frame property of one low-level completion poll (bdma.rs). -/
theorem bdma_poll_frame (st : bdma.St) (d sn cn w : Nat) (r : PollRes)
    (st1 : bdma.St) (ev : List bdma.Event)
    (h : bdma.wait_for_completion_poll st d sn cn w = some (r, st1, ev)) :
    st1.chs = st.chs ∧ st1.tcif = st.tcif ∧ st1.teif = st.teif ∧
    ev = [bdma.Event.readIsr d] := by
  simp only [bdma.wait_for_completion_poll] at h
  split at h
  · exact absurd h (by simp)
  · split at h <;>
    · simp only [Option.some.injEq, Prod.mk.injEq] at h
      obtain ⟨-, h2, h3⟩ := h
      subst h2 h3
      exact ⟨rfl, rfl, rfl, rfl⟩

/-- Any number of polls of the low-level completion future (dma.rs) leaves
every hardware register and flag unchanged and performs no register write. -/
theorem dma_pollMany_frame (d sn cn : Nat) (ws : List Nat) (st : dma.St) :
    (dma.pollMany d sn cn ws st).1.chs = st.chs ∧
    (dma.pollMany d sn cn ws st).1.tcif = st.tcif ∧
    (dma.pollMany d sn cn ws st).1.teif = st.teif ∧
    ((dma.pollMany d sn cn ws st).2.filter (fun e => e.isWrite)) = [] := by
  induction ws generalizing st with
  | nil => exact ⟨rfl, rfl, rfl, rfl⟩
  | cons w rest ih =>
    unfold dma.pollMany
    cases hp : dma.wait_for_completion_poll st d sn cn w with
    | none => exact ⟨rfl, rfl, rfl, rfl⟩
    | some res =>
      obtain ⟨r, st1, ev⟩ := res
      obtain ⟨h1, h2, h3, h4⟩ := dma_poll_frame st d sn cn w r st1 ev hp
      obtain ⟨i1, i2, i3, i4⟩ := ih st1
      subst h4
      refine ⟨by rw [i1, h1], by rw [i2, h2], by rw [i3, h3], ?_⟩
      rw [List.filter_append, i4]
      simp [List.filter, dma.Event.isWrite]

/-- Any number of polls of the low-level completion future (bdma.rs) leaves
every hardware register and flag unchanged and performs no register write. -/
theorem bdma_pollMany_frame (d sn cn : Nat) (ws : List Nat) (st : bdma.St) :
    (bdma.pollMany d sn cn ws st).1.chs = st.chs ∧
    (bdma.pollMany d sn cn ws st).1.tcif = st.tcif ∧
    (bdma.pollMany d sn cn ws st).1.teif = st.teif ∧
    ((bdma.pollMany d sn cn ws st).2.filter (fun e => e.isWrite)) = [] := by
  induction ws generalizing st with
  | nil => exact ⟨rfl, rfl, rfl, rfl⟩
  | cons w rest ih =>
    unfold bdma.pollMany
    cases hp : bdma.wait_for_completion_poll st d sn cn w with
    | none => exact ⟨rfl, rfl, rfl, rfl⟩
    | some res =>
      obtain ⟨r, st1, ev⟩ := res
      obtain ⟨h1, h2, h3, h4⟩ := bdma_poll_frame st d sn cn w r st1 ev hp
      obtain ⟨i1, i2, i3, i4⟩ := ih st1
      subst h4
      refine ⟨by rw [i1, h1], by rw [i2, h2], by rw [i3, h3], ?_⟩
      rw [List.filter_append, i4]
      simp [List.filter, bdma.Event.isWrite]

/-- C7: polling the low-level completion future any number of times (with any
wakers), on either family, changes no DMA hardware register or status flag
and records no register write — each poll is only a waker registration and a
status-register read. -/
theorem c7_polls_no_hw_side_effect (d sn cn : Nat) (ws : List Nat)
    (st : dma.St) (stB : bdma.St) :
    ((dma.pollMany d sn cn ws st).1.chs = st.chs ∧
      (dma.pollMany d sn cn ws st).1.tcif = st.tcif ∧
      (dma.pollMany d sn cn ws st).1.teif = st.teif ∧
      ((dma.pollMany d sn cn ws st).2.filter (fun e => e.isWrite)) = []) ∧
    ((bdma.pollMany d sn cn ws stB).1.chs = stB.chs ∧
      (bdma.pollMany d sn cn ws stB).1.tcif = stB.tcif ∧
      (bdma.pollMany d sn cn ws stB).1.teif = stB.teif ∧
      ((bdma.pollMany d sn cn ws stB).2.filter (fun e => e.isWrite)) = []) :=
  ⟨dma_pollMany_frame d sn cn ws st, bdma_pollMany_frame d sn cn ws stB⟩

/-- C8: every transfer start of either family — the one-shot `do_transfer`
path (for an in-range count, which is the only case in which it starts) and
the manual `impl_start_transfer!` path for any count `m` — records an
enable-bit write, and among the events strictly before the first enable-bit
write there is a sticky-status clear (IFCR write). -/
theorem c8_status_cleared_before_enable (d ch sn rq pa ma n m : Nat)
    (dir : Dir) (im : Bool) (sz : Size) (st : dma.St) (stB : bdma.St)
    (h : ¬n > 0xFFFF) :
    (∃ f st1 tr1,
      dma.do_transfer d ch sn rq dir pa ma n im sz st = some (f, st1, tr1) ∧
      tr1.any dma.Event.isEnableWrite = true ∧
      (tr1.takeWhile (fun e => !(dma.Event.isEnableWrite e))).any
        dma.Event.isStatusClear = true) ∧
    (∃ fB stB1 trB1,
      bdma.do_transfer d ch sn dir pa ma n im sz stB = some (fB, stB1, trB1) ∧
      trB1.any bdma.Event.isEnableWrite = true ∧
      (trB1.takeWhile (fun e => !(bdma.Event.isEnableWrite e))).any
        bdma.Event.isStatusClear = true) ∧
    ((dma.impl_start_transfer d ch rq pa ma m dir sz st).2.any
        dma.Event.isEnableWrite = true ∧
      ((dma.impl_start_transfer d ch rq pa ma m dir sz st).2.takeWhile
        (fun e => !(dma.Event.isEnableWrite e))).any dma.Event.isStatusClear = true) ∧
    ((bdma.impl_start_transfer d ch pa ma m dir sz stB).2.any
        bdma.Event.isEnableWrite = true ∧
      ((bdma.impl_start_transfer d ch pa ma m dir sz stB).2.takeWhile
        (fun e => !(bdma.Event.isEnableWrite e))).any bdma.Event.isStatusClear = true) := by
  refine ⟨?_, ?_, ?_, ?_⟩
  · refine ⟨⟨d, ch, sn, true⟩,
      (dma.start_transfer rq dir pa ma n im d ch sz
        (dma.reset_status st d (ch / 4) (ch % 4)).1).1,
      (dma.reset_status st d (ch / 4) (ch % 4)).2 ++ dma.Event.fenceRelease ::
        (dma.start_transfer rq dir pa ma n im d ch sz
          (dma.reset_status st d (ch / 4) (ch % 4)).1).2, ?_, ?_, ?_⟩
    · unfold dma.do_transfer
      simp [h]
    · simp [dma.reset_status, dma.start_transfer, dma.Event.isEnableWrite]
    · simp [dma.reset_status, dma.start_transfer, dma.Event.isEnableWrite,
        dma.Event.isStatusClear, List.takeWhile]
  · refine ⟨⟨d, ch, sn, true⟩,
      (bdma.start_transfer dir pa ma n im d ch sz (bdma.reset_status stB d ch).1).1,
      (bdma.reset_status stB d ch).2 ++
        (bdma.start_transfer dir pa ma n im d ch sz
          (bdma.reset_status stB d ch).1).2, ?_, ?_, ?_⟩
    · unfold bdma.do_transfer
      simp [h]
    · simp [bdma.reset_status, bdma.start_transfer, bdma.Event.isEnableWrite]
    · simp [bdma.reset_status, bdma.start_transfer, bdma.Event.isEnableWrite,
        bdma.Event.isStatusClear, List.takeWhile]
  · constructor
    · simp [dma.impl_start_transfer, dma.reset_status, dma.start_transfer,
        dma.Event.isEnableWrite]
    · simp [dma.impl_start_transfer, dma.reset_status, dma.start_transfer,
        dma.Event.isEnableWrite, dma.Event.isStatusClear, List.takeWhile]
  · constructor
    · simp [bdma.impl_start_transfer, bdma.reset_status, bdma.start_transfer,
        bdma.Event.isEnableWrite]
    · simp [bdma.impl_start_transfer, bdma.reset_status, bdma.start_transfer,
        bdma.Event.isEnableWrite, bdma.Event.isStatusClear, List.takeWhile]

/-- C8 witness: the statement instantiated at count 4 (one-shot) and count 3
(manual) on channel (0, 1) of each family, from the boot state. -/
theorem c8_status_cleared_witness :
    (∃ f st1 tr1,
      dma.do_transfer 0 1 1 0 Dir.peripheralToMemory 0 0 4 true Size.bits8
        dma.St.init = some (f, st1, tr1) ∧
      tr1.any dma.Event.isEnableWrite = true ∧
      (tr1.takeWhile (fun e => !(dma.Event.isEnableWrite e))).any
        dma.Event.isStatusClear = true) ∧
    (∃ fB stB1 trB1,
      bdma.do_transfer 0 1 1 Dir.peripheralToMemory 0 0 4 true Size.bits8
        bdma.St.init = some (fB, stB1, trB1) ∧
      trB1.any bdma.Event.isEnableWrite = true ∧
      (trB1.takeWhile (fun e => !(bdma.Event.isEnableWrite e))).any
        bdma.Event.isStatusClear = true) ∧
    ((dma.impl_start_transfer 0 1 0 0 0 3 Dir.peripheralToMemory Size.bits8
        dma.St.init).2.any dma.Event.isEnableWrite = true ∧
      ((dma.impl_start_transfer 0 1 0 0 0 3 Dir.peripheralToMemory Size.bits8
        dma.St.init).2.takeWhile (fun e => !(dma.Event.isEnableWrite e))).any
        dma.Event.isStatusClear = true) ∧
    ((bdma.impl_start_transfer 0 1 0 0 3 Dir.peripheralToMemory Size.bits8
        bdma.St.init).2.any bdma.Event.isEnableWrite = true ∧
      ((bdma.impl_start_transfer 0 1 0 0 3 Dir.peripheralToMemory Size.bits8
        bdma.St.init).2.takeWhile (fun e => !(bdma.Event.isEnableWrite e))).any
        bdma.Event.isStatusClear = true) :=
  c8_status_cleared_before_enable 0 1 1 0 0 0 4 3 Dir.peripheralToMemory true
    Size.bits8 dma.St.init bdma.St.init (by decide)

/-- C10: when the interrupt handler services a completed channel it writes
the channel's whole CR back to the reset value — clearing the enable bit and
every other control field, leaving the address and count registers alone —
and it performs neither the acquire fence nor any enable-bit readback after
its CR write: the handler's only CR accesses on a channel are one read
(before the write) and, when serviced, the reset write, while `stop`'s trace
is the reset write followed by the readback and the acquire fence. -/
theorem c10_irq_resets_cr_without_quiesce (st : dma.St) (stB : bdma.St)
    (d c : Nat) (hd : d < 2) (hc : c < 8) :
    (((st.tcif d c && (st.chs d c).cr.tcie) = true →
        (dma.on_irq st).1.chs d c = { st.chs d c with cr := dma.Cr.reset } ∧
        ((dma.on_irq st).1.chs d c).cr.en = false) ∧
      dma.Event.fenceAcquire ∉ (dma.on_irq st).2 ∧
      ((dma.on_irq st).2).filter (dma.touchesCr d c) =
        (if (st.tcif d c && (st.chs d c).cr.tcie) = true
          then [dma.Event.readCr d c, dma.Event.writeCr d c dma.Cr.reset]
          else [dma.Event.readCr d c]) ∧
      (dma.stop st d c).2 =
        [dma.Event.writeCr d c dma.Cr.reset, dma.Event.readCr d c,
          dma.Event.fenceAcquire]) ∧
    (((stB.tcif d c && (stB.chs d c).cr.tcie) = true →
        (bdma.on_irq stB).1.chs d c = { stB.chs d c with cr := bdma.Cr.reset } ∧
        ((bdma.on_irq stB).1.chs d c).cr.en = false) ∧
      bdma.Event.fenceAcquire ∉ (bdma.on_irq stB).2 ∧
      ((bdma.on_irq stB).2).filter (bdma.touchesCr d c) =
        (if (stB.tcif d c && (stB.chs d c).cr.tcie) = true
          then [bdma.Event.readCr d c, bdma.Event.writeCr d c bdma.Cr.reset]
          else [bdma.Event.readCr d c]) ∧
      (bdma.stop stB d c).2 =
        [bdma.Event.writeCr d c bdma.Cr.reset, bdma.Event.readCr d c,
          bdma.Event.fenceAcquire]) := by
  constructor
  · refine ⟨?_, dma.on_irq_no_acquire st, dma.on_irq_filter_cr st d c hd hc, rfl⟩
    intro hcond
    have hch := dma.on_irq_chs_char st d c hd hc
    rw [if_pos hcond] at hch
    exact ⟨hch, by rw [hch]; simp [dma.Cr.reset]⟩
  · refine ⟨?_, bdma.bon_irq_no_acquire stB, bdma.bon_irq_filter_cr stB d c hd hc, rfl⟩
    intro hcond
    have hch := bdma.bon_irq_chs_char stB d c hd hc
    rw [if_pos hcond] at hch
    exact ⟨hch, by rw [hch]; simp [bdma.Cr.reset]⟩

/-- C10 witness: instantiated on the concrete completed-transfer state for
DMA2 stream 0 and the bdma boot state. -/
theorem c10_irq_witness :
    (dma.on_irq exStC1).1.chs 1 0 = { exStC1.chs 1 0 with cr := dma.Cr.reset } ∧
    ((dma.on_irq exStC1).1.chs 1 0).cr.en = false ∧
    dma.Event.fenceAcquire ∉ (dma.on_irq exStC1).2 ∧
    bdma.Event.fenceAcquire ∉ (bdma.on_irq bdma.St.init).2 := by
  have h := c10_irq_resets_cr_without_quiesce exStC1 bdma.St.init 1 0
    (by decide) (by decide)
  have h1 := h.1.1 (by decide)
  exact ⟨h1.1, h1.2, h.1.2.1, h.2.2.1⟩

/-- C5: for every transfer started by a one-shot operation (either family),
the start itself executes no stop and returns the armed guard; any number of
pending polls executes no stop; and each exit path executes stop exactly
once — dropping the future before completion runs stop once and leaves the
enable bit false, while polling after hardware completion resolves ready,
runs stop once, disarms the guard, and a subsequent drop of the completed
future runs no further stop. -/
theorem c5_stop_exactly_once_per_exit (d ch sn rq pa ma n : Nat) (dir : Dir)
    (im : Bool) (sz : Size) (st : dma.St) (stB : bdma.St)
    (ws : List Nat) (w : Nat) (h : ¬n > 0xFFFF) :
    (∃ st1 tr1,
      dma.do_transfer d ch sn rq dir pa ma n im sz st =
        some (⟨d, ch, sn, true⟩, st1, tr1) ∧
      dma.stopCount tr1 = 0 ∧
      ∃ st2 tr2,
        dma.runPolls ⟨d, ch, sn, true⟩ ws st1 =
          some (⟨d, ch, sn, true⟩, st2, tr2) ∧
        dma.stopCount tr2 = 0 ∧
        dma.stopCount (dma.DTFut.dropFut ⟨d, ch, sn, true⟩ st2).2 = 1 ∧
        ((dma.DTFut.dropFut ⟨d, ch, sn, true⟩ st2).1.chs d ch).cr.en = false ∧
        ∃ st3 tr3,
          dma.DTFut.poll ⟨d, ch, sn, true⟩ w (dma.hwComplete st2 d ch) =
            some ((true, ⟨d, ch, sn, false⟩), st3, tr3) ∧
          dma.stopCount tr3 = 1 ∧
          ((st3.chs d ch).cr.en = false) ∧
          dma.stopCount (dma.DTFut.dropFut ⟨d, ch, sn, false⟩ st3).2 = 0) ∧
    (∃ st1 tr1,
      bdma.do_transfer d ch sn dir pa ma n im sz stB =
        some (⟨d, ch, sn, true⟩, st1, tr1) ∧
      bdma.stopCount tr1 = 0 ∧
      ∃ st2 tr2,
        bdma.runPolls ⟨d, ch, sn, true⟩ ws st1 =
          some (⟨d, ch, sn, true⟩, st2, tr2) ∧
        bdma.stopCount tr2 = 0 ∧
        bdma.stopCount (bdma.BTFut.dropFut ⟨d, ch, sn, true⟩ st2).2 = 1 ∧
        ((bdma.BTFut.dropFut ⟨d, ch, sn, true⟩ st2).1.chs d ch).cr.en = false ∧
        ∃ st3 tr3,
          bdma.BTFut.poll ⟨d, ch, sn, true⟩ w (bdma.hwComplete st2 d ch) =
            some ((true, ⟨d, ch, sn, false⟩), st3, tr3) ∧
          bdma.stopCount tr3 = 1 ∧
          ((st3.chs d ch).cr.en = false) ∧
          bdma.stopCount (bdma.BTFut.dropFut ⟨d, ch, sn, false⟩ st3).2 = 0) := by
  constructor
  · obtain ⟨st1, tr1, heq, ht, he, hsc⟩ :=
      dma.do_transfer_char d ch sn rq dir pa ma n im sz st h
    refine ⟨st1, tr1, heq, hsc, ?_⟩
    obtain ⟨st2, tr2, hrun, hsc2, ht2, he2, hchs2⟩ :=
      dma.runPolls_pending ⟨d, ch, sn, true⟩ ws st1 ht he
    refine ⟨st2, tr2, hrun, hsc2, ?_, ?_, ?_⟩
    · simp [dma.DTFut.dropFut, dma.stop, dma.stopCount]
    · simp [dma.DTFut.dropFut, dma.stop, dma.Cr.reset]
    · have ht3 : (dma.hwComplete st2 d ch).tcif d ch = true := by
        simp [dma.hwComplete]
      have he3 : (dma.hwComplete st2 d ch).teif d ch = false := he2
      refine ⟨(dma.stop (dma.set_waker (dma.hwComplete st2 d ch) sn w) d ch).1,
        dma.Event.readIsr d (ch / 4) ::
          (dma.stop (dma.set_waker (dma.hwComplete st2 d ch) sn w) d ch).2,
        ?_, ?_, ?_, ?_⟩
      · unfold dma.DTFut.poll
        rw [dma.poll_ready_eq (dma.hwComplete st2 d ch) d sn ch w ht3 he3]
        rfl
      · simp [dma.stop, dma.stopCount]
      · simp [dma.stop, dma.Cr.reset]
      · simp [dma.DTFut.dropFut, dma.stopCount]
  · obtain ⟨st1, tr1, heq, ht, he, hsc⟩ :=
      bdma.bdo_transfer_char d ch sn dir pa ma n im sz stB h
    refine ⟨st1, tr1, heq, hsc, ?_⟩
    obtain ⟨st2, tr2, hrun, hsc2, ht2, he2, hchs2⟩ :=
      bdma.brunPolls_pending ⟨d, ch, sn, true⟩ ws st1 ht he
    refine ⟨st2, tr2, hrun, hsc2, ?_, ?_, ?_⟩
    · simp [bdma.BTFut.dropFut, bdma.stop, bdma.stopCount]
    · simp [bdma.BTFut.dropFut, bdma.stop, bdma.Cr.reset]
    · have ht3 : (bdma.hwComplete st2 d ch).tcif d ch = true := by
        simp [bdma.hwComplete]
      have he3 : (bdma.hwComplete st2 d ch).teif d ch = false := he2
      refine ⟨(bdma.stop (bdma.set_waker (bdma.hwComplete st2 d ch) sn w) d ch).1,
        bdma.Event.readIsr d ::
          (bdma.stop (bdma.set_waker (bdma.hwComplete st2 d ch) sn w) d ch).2,
        ?_, ?_, ?_, ?_⟩
      · unfold bdma.BTFut.poll
        rw [bdma.bpoll_ready_eq (bdma.hwComplete st2 d ch) d sn ch w ht3 he3]
        rfl
      · simp [bdma.stop, bdma.stopCount]
      · simp [bdma.stop, bdma.Cr.reset]
      · simp [bdma.BTFut.dropFut, bdma.stopCount]

/-- C5 witness: the statement instantiated on channel (0, 2), a 4-element
transfer, two pending polls then exit, from the boot state of each family. -/
theorem c5_stop_exactly_once_witness :
    (∃ st1 tr1,
      dma.do_transfer 0 2 2 0 Dir.peripheralToMemory 0 0 4 true Size.bits8
        dma.St.init = some (⟨0, 2, 2, true⟩, st1, tr1) ∧
      dma.stopCount tr1 = 0 ∧
      ∃ st2 tr2,
        dma.runPolls ⟨0, 2, 2, true⟩ [5, 6] st1 =
          some (⟨0, 2, 2, true⟩, st2, tr2) ∧
        dma.stopCount tr2 = 0 ∧
        dma.stopCount (dma.DTFut.dropFut ⟨0, 2, 2, true⟩ st2).2 = 1 ∧
        ((dma.DTFut.dropFut ⟨0, 2, 2, true⟩ st2).1.chs 0 2).cr.en = false ∧
        ∃ st3 tr3,
          dma.DTFut.poll ⟨0, 2, 2, true⟩ 7 (dma.hwComplete st2 0 2) =
            some ((true, ⟨0, 2, 2, false⟩), st3, tr3) ∧
          dma.stopCount tr3 = 1 ∧
          ((st3.chs 0 2).cr.en = false) ∧
          dma.stopCount (dma.DTFut.dropFut ⟨0, 2, 2, false⟩ st3).2 = 0) ∧
    (∃ st1 tr1,
      bdma.do_transfer 0 2 2 Dir.peripheralToMemory 0 0 4 true Size.bits8
        bdma.St.init = some (⟨0, 2, 2, true⟩, st1, tr1) ∧
      bdma.stopCount tr1 = 0 ∧
      ∃ st2 tr2,
        bdma.runPolls ⟨0, 2, 2, true⟩ [5, 6] st1 =
          some (⟨0, 2, 2, true⟩, st2, tr2) ∧
        bdma.stopCount tr2 = 0 ∧
        bdma.stopCount (bdma.BTFut.dropFut ⟨0, 2, 2, true⟩ st2).2 = 1 ∧
        ((bdma.BTFut.dropFut ⟨0, 2, 2, true⟩ st2).1.chs 0 2).cr.en = false ∧
        ∃ st3 tr3,
          bdma.BTFut.poll ⟨0, 2, 2, true⟩ 7 (bdma.hwComplete st2 0 2) =
            some ((true, ⟨0, 2, 2, false⟩), st3, tr3) ∧
          bdma.stopCount tr3 = 1 ∧
          ((st3.chs 0 2).cr.en = false) ∧
          bdma.stopCount (bdma.BTFut.dropFut ⟨0, 2, 2, false⟩ st3).2 = 0) :=
  c5_stop_exactly_once_per_exit 0 2 2 0 0 0 4 Dir.peripheralToMemory true
    Size.bits8 dma.St.init bdma.St.init [5, 6] 7 (by decide)
